import Mathlib

/-!
Verification development for the ai-docs-app backend proxy
(src/backend/server.js): the Ollama status passthrough, the synchronous
summarize endpoint, and the streaming summarize relay, shallowly embedded
as pure Lean functions over explicit state.
-/

/-- Whitespace as trimmed by the JS String.trim used in server.js
(restricted to the ASCII whitespace occurring in this development). -/
def isWs (c : Char) : Bool :=
  c == ' ' || c == '\t' || c == '\n' || c == '\r'

/-- Trim whitespace from both ends of a character list. -/
def trimList (l : List Char) : List Char :=
  ((l.dropWhile isWs).reverse.dropWhile isWs).reverse

/-- Model of the JS expression text.trim() from server.js. -/
def jsTrim (s : String) : String :=
  ⟨trimList s.toList⟩

/-- Split a character list on a separator character, JS String.split
semantics: "a\nb" gives two pieces, a trailing separator yields a final
empty piece. -/
def splitOnChar (sep : Char) : List Char → List (List Char)
  | [] => [[]]
  | c :: cs =>
    let r := splitOnChar sep cs
    if c == sep then [] :: r
    else
      match r with
      | [] => [[c]]
      | piece :: rest => (c :: piece) :: rest

/-- Model of the JS expression chunk.toString().split of the newline
character in the streaming data handler (server.js line 132). -/
def jsSplitLines (s : String) : List String :=
  (splitOnChar '\n' s.toList).map (fun l => ⟨l⟩)

/-- Does the first list start with the second list? -/
def startsWithList : List Char → List Char → Bool
  | _, [] => true
  | [], _ :: _ => false
  | a :: l, b :: p => (a == b) && startsWithList l p

/-- Does the first list contain the second as a contiguous sublist?
Model of the JS String.includes used in the ollama-status handler
(server.js line 30). -/
def containsSub : List Char → List Char → Bool
  | [], pat => startsWithList [] pat
  | l@(_ :: rest), pat => startsWithList l pat || containsSub rest pat

/-- Drop an expected literal from the front of a list; none if the list
does not start with the literal. -/
def dropLit : List Char → List Char → Option (List Char)
  | [], l => some l
  | _ :: _, [] => none
  | a :: p, b :: l => if a == b then dropLit p l else none

/-- Scan a quote-free, escape-free JSON string body up to its closing
quote; returns the body and the remainder after the quote. -/
def scanQuoted : List Char → Option (List Char × List Char)
  | [] => none
  | c :: cs =>
    if c == '"' then some ([], cs)
    else if c == '\\' then none
    else
      match scanQuoted cs with
      | some (s, rest) => some (c :: s, rest)
      | none => none

/-- One parsed upstream stream record: the incremental text fragment (the
JSON field named response, absent when the field is missing) and the
completion flag (the JSON field named done). -/
structure Rec where
  response : Option String
  done : Bool
deriving DecidableEq

/-- Trailing part of a record after the done key: a JSON boolean followed
by the closing brace and end of line. -/
def parseDoneTail (l : List Char) : Option Bool :=
  if l == ("true\x7d").toList then some true
  else if l == ("false\x7d").toList then some false
  else none

/-- Model of the external JSON.parse (server.js line 137) restricted to
the upstream record grammar of the inference server contract: one
newline-delimited JSON object with an optional response string field
(escape-free) followed by a done boolean field. Any other line fails to
parse, matching JSON.parse throwing on a truncated or malformed record. -/
def parseRecordLine (line : String) : Option Rec :=
  let cs := line.toList
  match dropLit (("\x7b\"response\":\"").toList) cs with
  | some rest =>
    match scanQuoted rest with
    | some (s, rest2) =>
      match dropLit ((",\"done\":").toList) rest2 with
      | some rest3 =>
        match parseDoneTail rest3 with
        | some b => some ⟨some ⟨s⟩, b⟩
        | none => none
      | none => none
    | none => none
  | none =>
    match dropLit (("\x7b\"done\":").toList) cs with
    | some rest =>
      match parseDoneTail rest with
      | some b => some ⟨none, b⟩
      | none => none
    | none => none

/-- A Server-Sent-Events frame written to the downstream response, as a
tagged union over the four frame shapes produced by server.js. -/
inductive Event
  | start (message : String)
  | chunk (content fullContent : String)
  | complete (content originalText : String)
  | error (message : String) (details : Option String)
deriving DecidableEq

/-- State of the downstream response and of the relay while serving one
POST /api/summarize-stream request: frames delivered so far, whether the
response was ended, how often end was called, how many write attempts
happened after the response had ended (Node delivers none of them), the
accumulator fullResponse, whether SSE headers were written, and whether
the upstream stream object has a destroy method / has been destroyed. -/
structure StreamState where
  headersSent : Bool
  events : List Event
  ended : Bool
  endCount : Nat
  writesAfterEnd : Nat
  fullResponse : String
  upstreamHasDestroy : Bool
  upstreamDestroyed : Bool
deriving DecidableEq

/-- Model of res.write: after res.end, Node delivers nothing downstream
(the attempt only errors), so the frame list grows only while the
response is open. -/
def sseWrite (e : Event) (st : StreamState) : StreamState :=
  if st.ended then { st with writesAfterEnd := st.writesAfterEnd + 1 }
  else { st with events := st.events ++ [e] }

/-- Model of res.end. -/
def sseEnd (st : StreamState) : StreamState :=
  { st with ended := true, endCount := st.endCount + 1 }

/-- Body of the per-record part of the data handler (server.js lines
137-156): on a truthy response fragment, extend the accumulator and write
a chunk frame carrying the fragment and the new accumulator; on a truthy
done flag, write a complete frame with the trimmed accumulator and the
original input text, then end the response. -/
def handleRecord (text : String) (st : StreamState) (r : Rec) : StreamState :=
  let st1 :=
    match r.response with
    | some s =>
      if s == "" then st
      else
        let full := st.fullResponse ++ s
        sseWrite (Event.chunk s full) { st with fullResponse := full }
    | none => st
  if r.done then
    sseEnd (sseWrite (Event.complete (jsTrim st1.fullResponse) text) st1)
  else st1

/-- One line of the data handler loop (server.js lines 134-160): blank
lines are skipped, lines that fail to parse are skipped silently, parsed
records are handled. -/
def handleLine (text : String) (st : StreamState) (line : String) : StreamState :=
  if jsTrim line == "" then st
  else
    match parseRecordLine line with
    | some r => handleRecord text st r
    | none => st

/-- The data handler (server.js lines 131-162): split the incoming byte
chunk on newlines and process each piece independently. No remainder is
carried to the next chunk. -/
def processChunk (text : String) (st : StreamState) (chunk : String) : StreamState :=
  (jsSplitLines chunk).foldl (handleLine text) st

/-- The external happenings the streaming handler registers callbacks
for: an upstream data chunk, an upstream stream error, upstream stream
end, and the downstream client closing its connection (server.js lines
131, 164, 173, 185). -/
inductive UpEvent
  | data (chunk : String)
  | errorEv
  | endEv
  | clientClose
deriving DecidableEq

/-- Message of the initial start frame (server.js line 114). -/
def startMessage : String := "Starting summary generation..."

/-- Response state right after the handler wrote the SSE headers
(server.js line 105) and the start frame (line 114): headersSent is
already true before any upstream event is observed. -/
def initState (hd : Bool) : StreamState :=
  { headersSent := true
    events := [Event.start startMessage]
    ended := false
    endCount := 0
    writesAfterEnd := 0
    fullResponse := ""
    upstreamHasDestroy := hd
    upstreamDestroyed := false }

/-- Dispatch of one external happening to the matching registered handler:
data runs the chunk parser loop; error writes one error frame and ends;
end writes a fallback complete frame only when headers were never sent
(the guard on server.js line 174); client close destroys the upstream
stream when it has a destroy method (lines 187-189). -/
def step (text : String) (st : StreamState) (e : UpEvent) : StreamState :=
  match e with
  | .data chunk => processChunk text st chunk
  | .errorEv => sseEnd (sseWrite (Event.error ("Stream processing error") none) st)
  | .endEv =>
    if st.headersSent then st
    else sseEnd (sseWrite (Event.complete (jsTrim st.fullResponse) text) st)
  | .clientClose =>
    if st.upstreamHasDestroy then { st with upstreamDestroyed := true } else st

/-- Run of the streaming relay after validation: headers and start frame
written, then the observed upstream happenings processed in order. hd
says whether the upstream stream object carries a destroy method. -/
def runStream (hd : Bool) (text : String) (es : List UpEvent) : StreamState :=
  es.foldl (step text) (initState hd)

/-- Record-level run of the relay: every record arrives as its own
complete line, so only the per-record handler is exercised. -/
def runRecords (hd : Bool) (text : String) (recs : List Rec) : StreamState :=
  recs.foldl (handleRecord text) (initState hd)

/-- Is a frame terminal (complete or error)? -/
def isTerminal : Event → Bool
  | .complete _ _ => true
  | .error _ _ => true
  | _ => false

/-- Number of terminal frames among the delivered frames. -/
def terminalCount (es : List Event) : Nat :=
  (es.filter isTerminal).length

/-- Backend configuration read from the environment (server.js lines
17-18): upstream base URL and required model identifier. -/
structure Config where
  ollamaUrl : String
  modelName : String
deriving DecidableEq

/-- The default configuration used when the environment sets nothing. -/
def defaultConfig : Config :=
  { ollamaUrl := "http://localhost:11434", modelName := "mistral" }

/-- The fixed instruction prompt built around the raw input text
(server.js lines 56 and 102). -/
def promptFor (text : String) : String :=
  ("Please provide a concise and professional summary of the following text. Focus on the key points and main ideas:\n\n") ++ text

/-- Body of a POST to the upstream generate endpoint (server.js lines
58-66 and 116-126). The sampling temperature 0.7 is held as tenths to
stay in exact arithmetic. -/
structure GenerateReq where
  model : String
  prompt : String
  stream : Bool
  temperatureTenths : Nat
  maxTokens : Nat
deriving DecidableEq

/-- The one upstream generation request a summarize handler issues. -/
def genRequest (cfg : Config) (text : String) (stream : Bool) : GenerateReq :=
  { model := cfg.modelName
    prompt := promptFor text
    stream := stream
    temperatureTenths := 7
    maxTokens := 500 }

/-- Outcome of the blocking upstream generation call: a response body, a
refused connection (axios error code ECONNREFUSED), or any other
failure. -/
inductive UpstreamResult
  | ok (response : String)
  | connRefused (message : String)
  | otherErr (message : String)
deriving DecidableEq

/-- The validation error message (server.js lines 53 and 99). -/
def requiredTextError : String := "Text is required for summarization"

/-- HTTP response of POST /api/summarize: the success body or an error
body with its status code and optional details field. -/
inductive SummarizeResponse
  | ok (summary originalText : String)
  | err (status : Nat) (error : String) (details : Option String)
deriving DecidableEq

/-- The POST /api/summarize handler (server.js lines 48-91), paired with
the list of upstream generation requests it issues. A missing or null
text field arrives as none; the falsy check and the trim check reject
before any upstream contact. -/
def summarizeHandler (cfg : Config) (text? : Option String) (upstream : UpstreamResult) :
    SummarizeResponse × List GenerateReq :=
  match text? with
  | none => (.err 400 requiredTextError none, [])
  | some text =>
    if text == "" || jsTrim text == "" then (.err 400 requiredTextError none, [])
    else
      match upstream with
      | .ok r => (.ok (jsTrim r) text, [genRequest cfg text false])
      | .connRefused _ =>
        (.err 503 ("Cannot connect to Ollama. Please ensure Ollama is running locally.")
          (some (("Trying to connect to: ") ++ cfg.ollamaUrl)), [genRequest cfg text false])
      | .otherErr m =>
        (.err 500 ("Failed to generate summary") (some m), [genRequest cfg text false])

/-- Outcome of issuing the upstream streaming call: it returns a stream
whose happenings follow, or it throws with an error code and message. -/
inductive StreamCall
  | ok (es : List UpEvent)
  | failed (code : String) (message : String)
deriving DecidableEq

/-- Result of the POST /api/summarize-stream handler: either a plain
HTTP error sent before any SSE framing, or an SSE response described by
its final stream state. -/
inductive StreamHandlerResult
  | badRequest (status : Nat) (error : String)
  | sse (st : StreamState)
deriving DecidableEq

/-- The POST /api/summarize-stream handler (server.js lines 94-206),
paired with the list of upstream generation requests it issues.
Validation rejects with a plain HTTP 400 before SSE headers are written;
afterwards headers and the start frame are written, the upstream call is
issued, and either the stream happenings are relayed or the catch block
(lines 192-205) writes one error frame and ends. -/
def summarizeStreamHandler (cfg : Config) (hd : Bool) (text? : Option String)
    (call : StreamCall) : StreamHandlerResult × List GenerateReq :=
  match text? with
  | none => (.badRequest 400 requiredTextError, [])
  | some text =>
    if text == "" || jsTrim text == "" then (.badRequest 400 requiredTextError, [])
    else
      match call with
      | .ok es => (.sse (runStream hd text es), [genRequest cfg text true])
      | .failed code m =>
        let errorMessage :=
          if code == ("ECONNREFUSED") then
            "Cannot connect to Ollama. Please ensure Ollama is running locally."
          else "Failed to generate summary"
        (.sse (sseEnd (sseWrite (Event.error errorMessage (some m)) (initState hd))),
          [genRequest cfg text true])

/-- One entry of the upstream tags listing (server.js line 30): only the
name field is consumed. -/
structure ModelEntry where
  name : String
deriving DecidableEq

/-- Outcome of the upstream tags call: a body whose models field may be
absent, or any failure caught by the handler. -/
inductive TagsResult
  | ok (models? : Option (List ModelEntry))
  | err (message : String)
deriving DecidableEq

/-- Payload of GET /api/ollama-status. The success body carries the
models and hasRequiredModel keys; the failure body omits both, which the
option fields record as none (server.js lines 32-43). -/
structure OllamaStatus where
  connected : Bool
  models : Option (List String)
  hasRequiredModel : Option Bool
  requiredModel : String
  error : Option String
deriving DecidableEq

/-- The GET /api/ollama-status handler (server.js lines 26-45): always
answers HTTP 200 with a JSON payload, encoding upstream failure in the
payload instead of raising. -/
def ollamaStatusHandler (cfg : Config) (r : TagsResult) : OllamaStatus :=
  match r with
  | .ok models? =>
    let models := models?.getD []
    let hasModel := models.any (fun m => containsSub m.name.toList cfg.modelName.toList)
    { connected := true
      models := some (models.map (fun m => m.name))
      hasRequiredModel := some hasModel
      requiredModel := cfg.modelName
      error := none }
  | .err msg =>
    { connected := false
      models := none
      hasRequiredModel := none
      requiredModel := cfg.modelName
      error := some msg }

/-- Expected downstream frame list for a record sequence, written from
the spec of the relay (spec section 4.3 item 4): each record with a
non-empty fragment contributes one chunk frame carrying the fragment and
the accumulator extended by it; a done record additionally contributes
one complete frame with the trimmed accumulator and the input text, and
nothing follows the terminal frame. -/
def expectedEvents (text : String) : String → List Rec → List Event
  | _, [] => []
  | acc, r :: rest =>
    let frag := (r.response).getD ""
    let acc' := if frag == "" then acc else acc ++ frag
    let evs := if frag == "" then ([] : List Event) else [Event.chunk frag acc']
    if r.done then evs ++ [Event.complete (jsTrim acc') text]
    else evs ++ expectedEvents text acc' rest

/-- Well-formedness of a delivered frame trace relative to an accumulator:
every chunk frame carries a non-empty fragment and an accumulated content
equal to the previous accumulated content extended by that fragment, and
every complete frame carries the trimmed accumulator and the original
input text. -/
def goodTrace (text : String) : String → List Event → Prop
  | _, [] => True
  | acc, e :: rest =>
    match e with
    | .start _ => goodTrace text acc rest
    | .chunk frag full => frag ≠ "" ∧ full = acc ++ frag ∧ goodTrace text full rest
    | .complete c o => c = jsTrim acc ∧ o = text ∧ goodTrace text acc rest
    | .error _ _ => goodTrace text acc rest

/-- C4: for non-empty (after trimming) text, when the upstream generation
call succeeds, POST /api/summarize answers success with the trimmed
upstream text as summary and the input text unchanged as originalText,
having issued exactly one upstream request with stream set to false. -/
theorem summarize_success_path (cfg : Config) (text r : String)
    (h : jsTrim text ≠ "") :
    summarizeHandler cfg (some text) (UpstreamResult.ok r) =
      (SummarizeResponse.ok (jsTrim r) text, [genRequest cfg text false]) ∧
    (genRequest cfg text false).stream = false := by
  have htext : text ≠ "" := by
    intro c
    apply h
    rw [c]
    decide
  refine ⟨?_, rfl⟩
  simp [summarizeHandler, htext, h]

/-- Closed instance of summarize_success_path at concrete inputs. -/
theorem summarize_success_path_witness :
    jsTrim ("hello") ≠ "" ∧
    (summarizeHandler defaultConfig (some ("hello")) (UpstreamResult.ok (" a summary ")) =
      (SummarizeResponse.ok (jsTrim (" a summary ")) ("hello"),
        [genRequest defaultConfig ("hello") false]) ∧
    (genRequest defaultConfig ("hello") false).stream = false) :=
  ⟨by decide, summarize_success_path defaultConfig ("hello") (" a summary ") (by decide)⟩

/-- C5: with empty or whitespace-only text, POST /api/summarize answers
HTTP 400 with the validation error body and issues no upstream request. -/
theorem summarize_empty_text_400_no_upstream (cfg : Config) (u : UpstreamResult)
    (text : String) (h : jsTrim text = "") :
    summarizeHandler cfg (some text) u =
      (SummarizeResponse.err 400 requiredTextError none, []) := by
  simp [summarizeHandler, h]

/-- Closed instance of summarize_empty_text_400_no_upstream at concrete
inputs. -/
theorem summarize_empty_text_400_no_upstream_witness :
    jsTrim ("   ") = "" ∧
    summarizeHandler defaultConfig (some ("   ")) (UpstreamResult.ok ("x")) =
      (SummarizeResponse.err 400 requiredTextError none, []) :=
  ⟨by decide,
    summarize_empty_text_400_no_upstream defaultConfig (UpstreamResult.ok ("x")) ("   ")
      (by decide)⟩

/-- C6: with non-empty text, a refused upstream connection yields HTTP
503 whose details name the configured upstream URL (the URL occurs in the
message), and any other upstream failure yields HTTP 500 carrying the
upstream error detail. -/
theorem summarize_upstream_failure_statuses (cfg : Config) (text m : String)
    (h : jsTrim text ≠ "") :
    (summarizeHandler cfg (some text) (UpstreamResult.connRefused m)).1 =
      SummarizeResponse.err 503
        ("Cannot connect to Ollama. Please ensure Ollama is running locally.")
        (some (("Trying to connect to: ") ++ cfg.ollamaUrl)) ∧
    (∃ a b : String, ("Trying to connect to: ") ++ cfg.ollamaUrl = a ++ cfg.ollamaUrl ++ b) ∧
    (summarizeHandler cfg (some text) (UpstreamResult.otherErr m)).1 =
      SummarizeResponse.err 500 ("Failed to generate summary") (some m) := by
  have htext : text ≠ "" := by
    intro c
    apply h
    rw [c]
    decide
  refine ⟨?_, ⟨("Trying to connect to: "), "", by simp⟩, ?_⟩ <;>
    simp [summarizeHandler, htext, h]

/-- Closed instance of summarize_upstream_failure_statuses at concrete
inputs. -/
theorem summarize_upstream_failure_statuses_witness :
    jsTrim ("hello") ≠ "" ∧
    ((summarizeHandler defaultConfig (some ("hello"))
        (UpstreamResult.connRefused ("connect ECONNREFUSED"))).1 =
      SummarizeResponse.err 503
        ("Cannot connect to Ollama. Please ensure Ollama is running locally.")
        (some (("Trying to connect to: ") ++ defaultConfig.ollamaUrl)) ∧
    (∃ a b : String,
      ("Trying to connect to: ") ++ defaultConfig.ollamaUrl = a ++ defaultConfig.ollamaUrl ++ b) ∧
    (summarizeHandler defaultConfig (some ("hello"))
        (UpstreamResult.otherErr ("boom"))).1 =
      SummarizeResponse.err 500 ("Failed to generate summary") (some ("boom"))) := by
  have hne : jsTrim ("hello") ≠ "" := by decide
  exact ⟨hne,
    summarize_upstream_failure_statuses defaultConfig ("hello") ("connect ECONNREFUSED") hne |>.1,
    (summarize_upstream_failure_statuses defaultConfig ("hello") ("boom") hne).2⟩

/-- C2 counterexample: with whitespace-only text the streaming handler
answers with a plain HTTP 400 error response and issues no upstream
request; no SSE response state exists, so no error frame is delivered via
SSE framing. -/
theorem empty_text_stream_rejected_before_sse :
    summarizeStreamHandler defaultConfig true (some (" ")) (StreamCall.ok []) =
      (StreamHandlerResult.badRequest 400 requiredTextError, []) := by
  decide

/-- C2 (amended): with empty or whitespace-only text the streaming
handler terminates immediately with a plain HTTP 400 JSON error response,
before any SSE headers or frames are written and without contacting
upstream. -/
theorem stream_validation_plain_http_400 (cfg : Config) (hd : Bool)
    (call : StreamCall) (text : String) (h : jsTrim text = "") :
    summarizeStreamHandler cfg hd (some text) call =
      (StreamHandlerResult.badRequest 400 requiredTextError, []) := by
  simp [summarizeStreamHandler, h]

/-- Closed instance of stream_validation_plain_http_400 at concrete
inputs. -/
theorem stream_validation_plain_http_400_witness :
    jsTrim ("  ") = "" ∧
    summarizeStreamHandler defaultConfig true (some ("  ")) (StreamCall.ok []) =
      (StreamHandlerResult.badRequest 400 requiredTextError, []) :=
  ⟨by decide,
    stream_validation_plain_http_400 defaultConfig true (StreamCall.ok []) ("  ") (by decide)⟩

/-- C10: a request whose body lacks the text field (or carries a null
text) is rejected by both summarize endpoints with the same HTTP 400
error as empty text, with no SSE framing and no upstream request. -/
theorem missing_text_rejected_400 (cfg : Config) (hd : Bool)
    (u : UpstreamResult) (call : StreamCall) :
    summarizeHandler cfg none u = (SummarizeResponse.err 400 requiredTextError none, []) ∧
    summarizeStreamHandler cfg hd none call =
      (StreamHandlerResult.badRequest 400 requiredTextError, []) ∧
    summarizeHandler cfg none u = summarizeHandler cfg (some ("")) u := by
  refine ⟨rfl, rfl, ?_⟩
  simp [summarizeHandler]

/-- C1 (code bug): when the upstream stream delivers one record without a
done flag and then ends, the relay delivers no terminal frame at all and
never ends the downstream response — the fallback complete frame of the
end handler is unreachable because its guard tests that headers were not
sent, while the handler always sends them first. -/
theorem stream_end_without_done_emits_no_terminal :
    terminalCount (runStream true ("hello")
      [UpEvent.data ("\x7b\"response\":\"Summary\",\"done\":false\x7d\n"),
        UpEvent.endEv]).events = 0 ∧
    (runStream true ("hello")
      [UpEvent.data ("\x7b\"response\":\"Summary\",\"done\":false\x7d\n"),
        UpEvent.endEv]).ended = false ∧
    (runStream true ("hello")
      [UpEvent.data ("\x7b\"response\":\"Summary\",\"done\":false\x7d\n"),
        UpEvent.endEv]).events =
      [Event.start startMessage, Event.chunk ("Summary") ("Summary")] ∧
    (runStream true ("hello")
      [UpEvent.data ("\x7b\"response\":\"Summary\",\"done\":false\x7d\n"),
        UpEvent.endEv]).fullResponse = ("Summary") := by
  decide

/-- C3 (code bug): a record split across two upstream chunks is silently
dropped — each half fails to parse on its own — while the same bytes in
one chunk produce the chunk and complete frames, so the downstream frame
sequence depends on where chunk boundaries fall. -/
theorem split_record_dropped_across_chunks :
    (runStream true ("hello")
      [UpEvent.data ("\x7b\"respon"),
        UpEvent.data ("se\":\"Hi\",\"done\":true\x7d\n"),
        UpEvent.endEv]).events = [Event.start startMessage] ∧
    (runStream true ("hello")
      [UpEvent.data (("\x7b\"respon") ++ ("se\":\"Hi\",\"done\":true\x7d\n")),
        UpEvent.endEv]).events =
      [Event.start startMessage, Event.chunk ("Hi") ("Hi"),
        Event.complete ("Hi") ("hello")] := by
  decide

/-- A list starts with a pattern exactly when it is the pattern followed
by some tail. -/
theorem startsWithList_iff (pat : List Char) : ∀ l : List Char,
    startsWithList l pat = true ↔ ∃ t, l = pat ++ t := by
  induction pat with
  | nil =>
    intro l
    simp [startsWithList]
  | cons b p ih =>
    intro l
    cases l with
    | nil => simp [startsWithList]
    | cons a l' =>
      simp only [startsWithList, Bool.and_eq_true, beq_iff_eq, ih l', List.cons_append,
        List.cons_eq_cons]
      constructor
      · rintro ⟨hab, t, ht⟩
        exact ⟨t, hab, ht⟩
      · rintro ⟨t, hab, ht⟩
        exact ⟨hab, t, ht⟩

/-- A list contains a pattern as a contiguous sublist exactly when it
splits as some head, the pattern, and some tail. -/
theorem containsSub_iff (pat : List Char) : ∀ l : List Char,
    containsSub l pat = true ↔ ∃ a b, l = a ++ pat ++ b := by
  intro l
  induction l with
  | nil =>
    simp only [containsSub, startsWithList_iff]
    constructor
    · rintro ⟨t, ht⟩
      exact ⟨[], t, by simpa using ht⟩
    · rintro ⟨a, b, hab⟩
      rcases List.append_eq_nil.mp (List.append_eq_nil.mp hab.symm).1 with ⟨ha, hp⟩
      exact ⟨b, by simp [hp]; simpa [ha, hp] using hab.symm⟩
  | cons x r ih =>
    simp only [containsSub, Bool.or_eq_true, startsWithList_iff, ih]
    constructor
    · rintro (⟨t, ht⟩ | ⟨a, b, hab⟩)
      · exact ⟨[], t, by simp [ht]⟩
      · exact ⟨x :: a, b, by simp [hab]⟩
    · rintro ⟨a, b, hab⟩
      cases a with
      | nil =>
        left
        exact ⟨b, by simpa using hab⟩
      | cons y a' =>
        right
        rcases List.cons_eq_cons.mp (by simpa using hab) with ⟨hxy, hr⟩
        exact ⟨a', b, by rw [hr, List.append_assoc]⟩

/-- C7 counterexample: on upstream failure the status payload omits the
models and hasRequiredModel keys, so it does not conform to the stated
shape in which both are required. -/
theorem status_failure_payload_omits_models :
    (ollamaStatusHandler defaultConfig (TagsResult.err ("connect ECONNREFUSED"))).models = none ∧
    (ollamaStatusHandler defaultConfig
      (TagsResult.err ("connect ECONNREFUSED"))).hasRequiredModel = none ∧
    (ollamaStatusHandler defaultConfig (TagsResult.err ("connect ECONNREFUSED"))).connected
      = false := by
  decide

/-- C7 (amended): the status handler is a total function of the upstream
tags outcome (it never raises): on upstream success it answers connected
true with the listed model names, hasRequiredModel true exactly when some
returned model name contains the required model identifier as a
substring, and no error; on upstream failure it answers connected false
with the error message and the required model, omitting the models and
hasRequiredModel keys. -/
theorem ollama_status_payload (cfg : Config) (models? : Option (List ModelEntry))
    (msg : String) :
    ollamaStatusHandler cfg (TagsResult.ok models?) =
      { connected := true
        models := some ((models?.getD []).map (fun m => m.name))
        hasRequiredModel := some ((models?.getD []).any
          (fun m => containsSub m.name.toList cfg.modelName.toList))
        requiredModel := cfg.modelName
        error := none } ∧
    ((ollamaStatusHandler cfg (TagsResult.ok models?)).hasRequiredModel = some true ↔
      ∃ m ∈ models?.getD [], ∃ a b, m.name.toList = a ++ cfg.modelName.toList ++ b) ∧
    ollamaStatusHandler cfg (TagsResult.err msg) =
      { connected := false
        models := none
        hasRequiredModel := none
        requiredModel := cfg.modelName
        error := some msg } := by
  refine ⟨rfl, ?_, rfl⟩
  simp only [ollamaStatusHandler, Option.some.injEq, List.any_eq_true, containsSub_iff]


/-- Writing a frame does not change the upstreamDestroyed field. -/
@[simp] theorem sseWrite_destroyed (e : Event) (st : StreamState) :
    (sseWrite e st).upstreamDestroyed = st.upstreamDestroyed := by
  unfold sseWrite
  split <;> rfl

/-- Writing a frame does not change the upstreamHasDestroy field. -/
@[simp] theorem sseWrite_hasDestroy (e : Event) (st : StreamState) :
    (sseWrite e st).upstreamHasDestroy = st.upstreamHasDestroy := by
  unfold sseWrite
  split <;> rfl

/-- Ending the response does not change the upstreamDestroyed field. -/
@[simp] theorem sseEnd_destroyed (st : StreamState) :
    (sseEnd st).upstreamDestroyed = st.upstreamDestroyed := rfl

/-- Ending the response does not change the upstreamHasDestroy field. -/
@[simp] theorem sseEnd_hasDestroy (st : StreamState) :
    (sseEnd st).upstreamHasDestroy = st.upstreamHasDestroy := rfl

/-- Handling a record touches neither upstream field. -/
theorem handleRecord_upstream (text : String) (st : StreamState) (r : Rec) :
    (handleRecord text st r).upstreamDestroyed = st.upstreamDestroyed ∧
    (handleRecord text st r).upstreamHasDestroy = st.upstreamHasDestroy := by
  obtain ⟨resp, d⟩ := r
  cases resp <;> cases d <;>
    simp [handleRecord, apply_ite (fun s : StreamState => s.upstreamDestroyed),
      apply_ite (fun s : StreamState => s.upstreamHasDestroy)]

/-- Handling one line touches neither upstream field. -/
theorem handleLine_upstream (text : String) (st : StreamState) (line : String) :
    (handleLine text st line).upstreamDestroyed = st.upstreamDestroyed ∧
    (handleLine text st line).upstreamHasDestroy = st.upstreamHasDestroy := by
  unfold handleLine
  split
  · exact ⟨rfl, rfl⟩
  · split
    · exact handleRecord_upstream _ _ _
    · exact ⟨rfl, rfl⟩

/-- Processing a data chunk touches neither upstream field. -/
theorem processChunk_upstream (text : String) (st : StreamState) (chunk : String) :
    (processChunk text st chunk).upstreamDestroyed = st.upstreamDestroyed ∧
    (processChunk text st chunk).upstreamHasDestroy = st.upstreamHasDestroy := by
  unfold processChunk
  generalize jsSplitLines chunk = ls
  induction ls generalizing st with
  | nil => exact ⟨rfl, rfl⟩
  | cons l ls ih =>
    simp only [List.foldl_cons]
    rcases ih (handleLine text st l) with ⟨h1, h2⟩
    rcases handleLine_upstream text st l with ⟨h3, h4⟩
    exact ⟨h1.trans h3, h2.trans h4⟩

/-- One dispatched happening never changes whether the upstream stream
object has a destroy method. -/
theorem step_hasDestroy (text : String) (st : StreamState) (e : UpEvent) :
    (step text st e).upstreamHasDestroy = st.upstreamHasDestroy := by
  cases e with
  | data c => exact (processChunk_upstream text st c).2
  | errorEv => simp [step]
  | endEv =>
    simp only [step]
    split
    · rfl
    · simp
  | clientClose =>
    simp only [step]
    split <;> rfl

/-- When the upstream stream object has a destroy method, a dispatched
happening leaves it destroyed exactly when it was already destroyed or
the happening is the client closing its connection. -/
theorem step_destroyed_iff (text : String) (st : StreamState) (e : UpEvent)
    (h : st.upstreamHasDestroy = true) :
    ((step text st e).upstreamDestroyed = true ↔
      (st.upstreamDestroyed = true ∨ e = UpEvent.clientClose)) := by
  cases e with
  | data c =>
    simp only [step]
    rw [(processChunk_upstream text st c).1]
    simp
  | errorEv => simp [step]
  | endEv =>
    simp only [step]
    split
    · simp
    · simp
  | clientClose =>
    simp only [step, h]
    simp

/-- Destruction of the upstream stream along a run is equivalent to having
started destroyed or observing a client disconnect, provided the stream
object has a destroy method. -/
theorem foldl_step_destroyed (text : String) : ∀ (es : List UpEvent) (st : StreamState),
    st.upstreamHasDestroy = true →
    ((es.foldl (step text) st).upstreamDestroyed = true ↔
      (st.upstreamDestroyed = true ∨ UpEvent.clientClose ∈ es)) := by
  intro es
  induction es with
  | nil =>
    intro st h
    simp
  | cons e es ih =>
    intro st h
    simp only [List.foldl_cons, List.mem_cons]
    rw [ih (step text st e) (by rw [step_hasDestroy]; exact h)]
    rw [step_destroyed_iff text st e h]
    constructor
    · rintro ((hd | he) | hm)
      · exact Or.inl hd
      · exact Or.inr (Or.inl he.symm)
      · exact Or.inr (Or.inr hm)
    · rintro (hd | he | hm)
      · exact Or.inl (Or.inl hd)
      · exact Or.inl (Or.inr he.symm)
      · exact Or.inr hm

/-- C9: along any streaming run the upstream stream ends up destroyed
exactly when the downstream client disconnected during the run — the
registered close handler is the only transition that destroys the
upstream stream, and the happenings the relay reacts to include no
timeout. -/
theorem client_disconnect_destroys_upstream (text : String) (es : List UpEvent) :
    ((runStream true text es).upstreamDestroyed = true ↔ UpEvent.clientClose ∈ es) := by
  unfold runStream
  rw [foldl_step_destroyed text es (initState true) rfl]
  simp [initState]

/-- Ending keeps the delivered frames. -/
@[simp] theorem sseEnd_events (st : StreamState) : (sseEnd st).events = st.events := rfl

/-- Ending sets the ended flag. -/
@[simp] theorem sseEnd_ended (st : StreamState) : (sseEnd st).ended = true := rfl

/-- Writing keeps the ended flag. -/
@[simp] theorem sseWrite_ended (e : Event) (st : StreamState) :
    (sseWrite e st).ended = st.ended := by
  unfold sseWrite
  split <;> rfl

/-- After the response has ended, a record changes neither the delivered
frames nor the ended flag. -/
theorem handleRecord_of_ended (text : String) (st : StreamState) (r : Rec)
    (h : st.ended = true) :
    (handleRecord text st r).events = st.events ∧ (handleRecord text st r).ended = true := by
  obtain ⟨resp, d⟩ := r
  cases resp <;> cases d <;>
    simp [handleRecord, sseWrite, sseEnd, h, apply_ite (fun s : StreamState => s.events),
      apply_ite (fun s : StreamState => s.ended)]

/-- After the response has ended, no further record changes the delivered
frames. -/
theorem foldl_handleRecord_of_ended (text : String) : ∀ (recs : List Rec) (st : StreamState),
    st.ended = true → (recs.foldl (handleRecord text) st).events = st.events := by
  intro recs
  induction recs with
  | nil =>
    intro st h
    rfl
  | cons r rest ih =>
    intro st h
    simp only [List.foldl_cons]
    rcases handleRecord_of_ended text st r h with ⟨h1, h2⟩
    rw [ih _ h2, h1]

/-- While the response is open, the run of the record handler delivers
exactly the expected frames after the frames already delivered, where the
expected frames are computed from the current accumulator. -/
theorem foldl_handleRecord_events (text : String) : ∀ (recs : List Rec) (st : StreamState),
    st.ended = false →
    (recs.foldl (handleRecord text) st).events =
      st.events ++ expectedEvents text st.fullResponse recs := by
  intro recs
  induction recs with
  | nil =>
    intro st h
    simp [expectedEvents]
  | cons r rest ih =>
    intro st h
    obtain ⟨resp, d⟩ := r
    simp only [List.foldl_cons]
    cases resp with
    | none =>
      cases d with
      | false =>
        have hrec : handleRecord text st ⟨none, false⟩ = st := rfl
        rw [hrec, ih st h]
        simp [expectedEvents]
      | true =>
        have hrec : handleRecord text st ⟨none, true⟩ =
            sseEnd (sseWrite (Event.complete (jsTrim st.fullResponse) text) st) := rfl
        rw [hrec, foldl_handleRecord_of_ended text rest _ (by simp)]
        simp [sseEnd, sseWrite, h, expectedEvents]
    | some s =>
      by_cases hs : s = ""
      · subst hs
        cases d with
        | false =>
          have hrec : handleRecord text st ⟨some (""), false⟩ = st := rfl
          rw [hrec, ih st h]
          simp [expectedEvents]
        | true =>
          have hrec : handleRecord text st ⟨some (""), true⟩ =
              sseEnd (sseWrite (Event.complete (jsTrim st.fullResponse) text) st) := rfl
          rw [hrec, foldl_handleRecord_of_ended text rest _ (by simp)]
          simp [sseEnd, sseWrite, h, expectedEvents]
      · cases d with
        | false =>
          have hrec : handleRecord text st ⟨some s, false⟩ =
              sseWrite (Event.chunk s (st.fullResponse ++ s))
                { st with fullResponse := st.fullResponse ++ s } := by
            simp [handleRecord, hs]
          rw [hrec]
          rw [ih _ (by simp [sseWrite, h])]
          simp [sseWrite, h, expectedEvents, hs]
        | true =>
          have hrec : handleRecord text st ⟨some s, true⟩ =
              sseEnd (sseWrite
                (Event.complete (jsTrim (st.fullResponse ++ s)) text)
                (sseWrite (Event.chunk s (st.fullResponse ++ s))
                  { st with fullResponse := st.fullResponse ++ s })) := by
            simp [handleRecord, hs, sseWrite, h]
          rw [hrec, foldl_handleRecord_of_ended text rest _ (by simp)]
          simp [sseEnd, sseWrite, h, expectedEvents, hs]

/-- The expected frame list for any record sequence is a well-formed
trace relative to its starting accumulator. -/
theorem goodTrace_expected (text : String) : ∀ (recs : List Rec) (acc : String),
    goodTrace text acc (expectedEvents text acc recs) := by
  intro recs
  induction recs with
  | nil =>
    intro acc
    simp [expectedEvents, goodTrace]
  | cons r rest ih =>
    intro acc
    obtain ⟨resp, d⟩ := r
    cases resp with
    | none =>
      cases d with
      | false =>
        simpa [expectedEvents] using ih acc
      | true =>
        simp [expectedEvents, goodTrace]
    | some s =>
      by_cases hs : s = ""
      · subst hs
        cases d with
        | false => simpa [expectedEvents] using ih acc
        | true => simp [expectedEvents, goodTrace]
      · cases d with
        | false =>
          simp only [expectedEvents]
          simp [hs, goodTrace]
          exact ih (acc ++ s)
        | true =>
          simp only [expectedEvents]
          simp [hs, goodTrace]

/-- C8: at the record level the relay delivers exactly one start frame
followed by the expected frames — one chunk frame per record with a
non-empty fragment, carrying the fragment and the accumulator extended by
it, and on a done record one complete frame with the trimmed accumulator
and the input text — and the delivered trace is well-formed: every chunk
accumulates strictly by appending its non-empty fragment, every complete
frame carries the trimmed accumulator and originalText equal to the
input. -/
theorem relay_record_trace_correct (text : String) (recs : List Rec) :
    (runRecords true text recs).events =
      Event.start startMessage :: expectedEvents text "" recs ∧
    goodTrace text "" ((runRecords true text recs).events) := by
  have h1 : (runRecords true text recs).events =
      Event.start startMessage :: expectedEvents text "" recs := by
    unfold runRecords
    rw [foldl_handleRecord_events text recs (initState true) rfl]
    rfl
  refine ⟨h1, ?_⟩
  rw [h1]
  exact goodTrace_expected text recs ""
